import Mathlib

/-!
# Financial Simulation Core — verification of the debt and retirement calculators

Shallow embedding of `backend/debt_management/debt_calculators.py` and
`backend/retirement/retirement_calculators.py`. Currency amounts and rates are
modelled as exact rationals (`ℚ`); the Python `while any(balance > 0)` loops,
which have no iteration bound in the source, are embedded with an explicit
`fuel` argument, `none` marking a run that the loop has not finished within
`fuel` months (in particular, `(∀ fuel, run = none)` shows the source loop
never terminates on that input).

The Python code keys per-debt running balances by `debt["name"]` in a dict;
the data model declares names unique within a debt set, so the embedding
carries the balances positionally, aligned with the iteration order of the
sorted debt list. Python's `sorted` is stable; it is modelled by a stable
insertion sort.
-/

/-- One liability, mirroring the debt dicts consumed by `DebtCalculator`
(keys `name`, `balance`, `interest_rate`, `minimum_payment`; the latter two
are read with `.get(..., 0)` so they are total here). -/
structure Debt where
  name : String
  balance : ℚ
  interest_rate : ℚ
  minimum_payment : ℚ
deriving DecidableEq, Repr

/-- One entry of `payoff_plan`: the dict
`{"debt": ..., "month_paid_off": ..., "total_paid": ...}` appended when a
debt's balance reaches ≤ 0 in the extra-payment phase. -/
structure PayoffEntry where
  debt : String
  month_paid_off : Nat
  total_paid : ℚ
deriving DecidableEq, Repr

/-- The dict returned by `calculate_debt_avalanche` / `calculate_debt_snowball`. -/
structure StrategyResult where
  strategy : String
  payoff_order : List String
  total_interest : ℚ
  months_to_payoff : Nat
  total_paid : ℚ
  payoff_plan : List PayoffEntry
deriving DecidableEq, Repr

/-- The dict returned by `compare_strategies`. The `recommendation_reason`
field, an f-string formatting floats for display, is not modelled. -/
structure StrategyComparison where
  avalanche : StrategyResult
  snowball : StrategyResult
  interest_savings : ℚ
  time_difference : ℤ
  recommended_strategy : String
deriving DecidableEq, Repr

/-- Stable insertion of `x` into `l`: `x` goes before the first element `y`
with `le x y`. Used to model Python's stable `sorted`. -/
def insertSorted (le : Debt → Debt → Bool) (x : Debt) : List Debt → List Debt
  | [] => [x]
  | y :: ys => if le x y then x :: y :: ys else y :: insertSorted le x ys

/-- Stable sort (insertion sort via `foldr`), modelling Python's `sorted`:
elements comparing equal keep their original relative order. -/
def stableSort (le : Debt → Debt → Bool) (xs : List Debt) : List Debt :=
  xs.foldr (insertSorted le) []

/-- Python `sorted(debts, key=lambda x: x.get("interest_rate", 0), reverse=True)` —
descending interest rate, stable. -/
def sortByRateDesc (debts : List Debt) : List Debt :=
  stableSort (fun a b => decide (b.interest_rate ≤ a.interest_rate)) debts

/-- Python `sorted(debts, key=lambda x: x.get("balance", 0))` — ascending balance,
stable. -/
def sortByBalanceAsc (debts : List Debt) : List Debt :=
  stableSort (fun a b => decide (a.balance ≤ b.balance)) debts

/-- The "Pay minimums on all debts" loop of one simulated month: for each
debt with positive remaining balance, pay `min(minimum_payment, balance)`,
deducting it from the balance and accumulating the total deducted (which the
caller subtracts from `available_payment`). Returns (new balances, total
paid). -/
def payMins : List Debt → List ℚ → List ℚ × ℚ
  | [], _ => ([], 0)
  | _ :: _, [] => ([], 0)
  | d :: ds, b :: bs =>
    let rest := payMins ds bs
    if 0 < b then
      let payment := min d.minimum_payment b
      ((b - payment) :: rest.1, rest.2 + payment)
    else
      (b :: rest.1, rest.2)

/-- Models `sum(d.get("interest_paid", 0) for d in payoff_plan if d.get("debt") == name)`:
payoff-plan entries are created without an `"interest_paid"` key, so each
`get` yields the default 0 and the sum adds 0 per matching entry. -/
def interestPaidSum (plan : List PayoffEntry) (nm : String) : ℚ :=
  (plan.filter (fun e => e.debt == nm)).foldl (fun acc _ => acc + 0) 0

/-- State threaded through the extra-payment phase of one month. -/
structure ExtraState where
  balances : List ℚ
  available : ℚ
  total_interest : ℚ
  plan : List PayoffEntry
deriving DecidableEq, Repr

/-- The "Apply extra to highest interest debt" / "Apply extra to smallest
debt" loop of one simulated month: walking the debts in priority order, a
debt with positive balance while leftover budget is positive first accrues
monthly interest `balance * (interest_rate/100/12)` (added to both the
balance and the running `total_interest`), then receives
`min(available_payment, balance)`; reaching ≤ 0 appends a payoff-plan
entry for the current month. -/
def payExtra (month : Nat) :
    List Debt → List ℚ → ℚ → ℚ → List PayoffEntry → ExtraState
  | [], _, avail, ti, plan => ⟨[], avail, ti, plan⟩
  | _ :: _, [], avail, ti, plan => ⟨[], avail, ti, plan⟩
  | d :: ds, b :: bs, avail, ti, plan =>
    if 0 < b ∧ 0 < avail then
      let interest := b * (d.interest_rate / 100 / 12)
      let ti1 := ti + interest
      let b1 := b + interest
      let extra := min avail b1
      let b2 := b1 - extra
      let avail1 := avail - extra
      let plan1 :=
        if b2 ≤ 0 then
          plan ++ [⟨d.name, month, d.balance + interestPaidSum plan d.name⟩]
        else plan
      let rest := payExtra month ds bs avail1 ti1 plan1
      ⟨b2 :: rest.balances, rest.available, rest.total_interest, rest.plan⟩
    else
      let rest := payExtra month ds bs avail ti plan
      ⟨b :: rest.balances, rest.available, rest.total_interest, rest.plan⟩

/-- One iteration of the `while any(balance > 0)` loop body: pay minimums on
all debts, then run the extra-payment phase on the leftover
`monthly_payment - (minimums paid)`. Returns (balances, total_interest,
payoff plan). -/
def monthStep (sd : List Debt) (mp : ℚ) (month : Nat)
    (bals : List ℚ) (ti : ℚ) (plan : List PayoffEntry) :
    List ℚ × ℚ × List PayoffEntry :=
  let m := payMins sd bals
  let e := payExtra month sd m.1 (mp - m.2) ti plan
  (e.balances, e.total_interest, e.plan)

/-- The `while any(balance > 0 for balance in remaining_balance.values())`
loop, with explicit fuel. Returns `some (months_to_payoff, total_interest,
payoff_plan)` when the loop exits, `none` when `fuel` months were simulated
without the condition turning false. -/
def runLoop (sd : List Debt) (mp : ℚ) :
    Nat → List ℚ → ℚ → List PayoffEntry → Nat → Option (Nat × ℚ × List PayoffEntry)
  | 0, bals, ti, plan, month =>
    if bals.any (fun b => decide (0 < b)) then none else some (month, ti, plan)
  | fuel + 1, bals, ti, plan, month =>
    if bals.any (fun b => decide (0 < b)) then
      let s := monthStep sd mp (month + 1) bals ti plan
      runLoop sd mp fuel s.1 s.2.1 s.2.2 (month + 1)
    else
      some (month, ti, plan)

/-- Embeds `DebtCalculator.calculate_debt_avalanche` (`sorted_debts` is
`sortByRateDesc debts`, written out). -/
def calculate_debt_avalanche (debts : List Debt) (monthly_payment : ℚ)
    (fuel : Nat) : Option StrategyResult :=
  match runLoop (sortByRateDesc debts) monthly_payment fuel
      ((sortByRateDesc debts).map Debt.balance) 0 [] 0 with
  | none => none
  | some (months, ti, plan) =>
    some ⟨"debt_avalanche", (sortByRateDesc debts).map Debt.name, ti, months,
      (debts.map Debt.balance).sum + ti, plan⟩

/-- Embeds `DebtCalculator.calculate_debt_snowball` (`sorted_debts` is
`sortByBalanceAsc debts`, written out). -/
def calculate_debt_snowball (debts : List Debt) (monthly_payment : ℚ)
    (fuel : Nat) : Option StrategyResult :=
  match runLoop (sortByBalanceAsc debts) monthly_payment fuel
      ((sortByBalanceAsc debts).map Debt.balance) 0 [] 0 with
  | none => none
  | some (months, ti, plan) =>
    some ⟨"debt_snowball", (sortByBalanceAsc debts).map Debt.name, ti, months,
      (debts.map Debt.balance).sum + ti, plan⟩

/-- Models `max(d.get("interest_rate", 0) for d in debts)`; `none` models the
`ValueError` Python's `max` raises on an empty sequence. -/
def maxInterestRate : List Debt → Option ℚ
  | [] => none
  | d :: ds => some (ds.foldl (fun m x => max m x.interest_rate) d.interest_rate)

/-- Models `min(d.get("interest_rate", 0) for d in debts)`; `none` models the
`ValueError` on an empty sequence. -/
def minInterestRate : List Debt → Option ℚ
  | [] => none
  | d :: ds => some (ds.foldl (fun m x => min m x.interest_rate) d.interest_rate)

/-- Embeds `DebtCalculator.compare_strategies`. `none` models any of: either
strategy run not finishing, or the `max()` / `min()` over an empty debt list
raising `ValueError`. -/
def compare_strategies (debts : List Debt) (monthly_payment : ℚ)
    (fuel : Nat) : Option StrategyComparison :=
  match calculate_debt_avalanche debts monthly_payment fuel,
        calculate_debt_snowball debts monthly_payment fuel,
        maxInterestRate debts, minInterestRate debts with
  | some a, some s, some mx, some mn =>
    some ⟨a, s, s.total_interest - a.total_interest,
      (s.months_to_payoff : ℤ) - (a.months_to_payoff : ℤ),
      if 3 < mx - mn then "avalanche" else "snowball"⟩
  | _, _, _, _ => none

/-!
## Retirement calculators

Embedding of `RetirementCalculator` from
`backend/retirement/retirement_calculators.py`. Portfolio snapshots are
dicts of dicts in the source; optional numeric fields that the code reads
with `.get(...)` followed by `or <default>` are modelled as `Option ℚ`
(`none` standing for a missing key or a `null` value). Python's
`x or default` yields `default` both when `x` is missing/`None` and when
`x == 0` (zero is falsy), which the embeddings below reproduce.
-/

/-- An instrument: `current_price` plus the `allocation_asset_class` dict
(asset-class label → percentage), modelled as an association list. -/
structure Instrument where
  current_price : Option ℚ
  allocation_asset_class : List (String × ℚ)
deriving DecidableEq, Repr

/-- A position: `quantity` and its instrument. -/
structure Position where
  quantity : Option ℚ
  instrument : Instrument
deriving DecidableEq, Repr

/-- An account: `cash_balance` plus positions. -/
structure Account where
  cash_balance : Option ℚ
  positions : List Position
deriving DecidableEq, Repr

/-- A portfolio snapshot: the `{"accounts": [...]}` dict. -/
structure Portfolio where
  accounts : List Account
deriving DecidableEq, Repr

/-- Models `instrument.get("current_price") or 100`: a missing/`null` price — and
also a present price of `0`, which is falsy — becomes `100`. -/
def priceOr100 : Option ℚ → ℚ
  | none => 100
  | some p => if p = 0 then 100 else p

/-- Models `position.get("quantity") or 0`: missing/`null` (and falsy `0`) becomes
`0`. -/
def quantityOr0 (q : Option ℚ) : ℚ :=
  q.getD 0

/-- Models `account.get("cash_balance") or 0`. -/
def cashOr0 (c : Option ℚ) : ℚ :=
  c.getD 0

/-- Embeds `RetirementCalculator.calculate_portfolio_value`: the nested
accumulation loop over accounts and positions. -/
def calculate_portfolio_value (portfolio_data : Portfolio) : ℚ :=
  portfolio_data.accounts.foldl
    (fun total account =>
      let total1 := total + cashOr0 account.cash_balance
      account.positions.foldl
        (fun t position =>
          t + quantityOr0 position.quantity * priceOr100 position.instrument.current_price)
        total1)
    0

/-- Closed form of `calculate_portfolio_value`, stated as the amended claim
reads: Σ accounts (cash, default 0) + Σ positions quantity (default 0) ×
price (default 100 when missing, `null`, or 0). -/
def portfolio_value_closed (portfolio_data : Portfolio) : ℚ :=
  (portfolio_data.accounts.map (fun account =>
    cashOr0 account.cash_balance +
      (account.positions.map (fun position =>
        quantityOr0 position.quantity * priceOr100 position.instrument.current_price)).sum)).sum

/-- Modelled from the spec's words for claim C4 ("Missing/`null` price or
quantity treated as 0"): like `portfolio_value_closed` but a missing or
`null` `current_price` contributes 0 instead of 100. The source code is
`priceOr100`; this definition exists only to be compared against it. -/
def portfolio_value_per_claim (portfolio_data : Portfolio) : ℚ :=
  (portfolio_data.accounts.map (fun account =>
    cashOr0 account.cash_balance +
      (account.positions.map (fun position =>
        quantityOr0 position.quantity * position.instrument.current_price.getD 0)).sum)).sum

/-- The dict returned by `calculate_asset_allocation`. -/
structure AssetAllocation where
  equity : ℚ
  bonds : ℚ
  real_estate : ℚ
  commodities : ℚ
  cash : ℚ
deriving DecidableEq, Repr

/-- Models `asset_allocation.get(key, 0)` on the `allocation_asset_class` dict. -/
def allocGet (m : List (String × ℚ)) (k : String) : ℚ :=
  (m.lookup k).getD 0

/-- The six running accumulators of `calculate_asset_allocation`. -/
structure AllocTotals where
  total_equity : ℚ
  total_bonds : ℚ
  total_real_estate : ℚ
  total_commodities : ℚ
  total_cash : ℚ
  total_value : ℚ
deriving DecidableEq, Repr

/-- The body of the inner `for position in account.get("positions", [])`
loop: add the position's value to `total_value`, and — when the
`allocation_asset_class` dict is non-empty (truthy) — add the value-weighted
percentages to the four asset buckets (`bonds` reads the `"fixed_income"`
key). -/
def allocPosStep (t : AllocTotals) (position : Position) : AllocTotals :=
  let value := quantityOr0 position.quantity * priceOr100 position.instrument.current_price
  let aa := position.instrument.allocation_asset_class
  if aa = [] then
    ⟨t.total_equity, t.total_bonds, t.total_real_estate, t.total_commodities,
      t.total_cash, t.total_value + value⟩
  else
    ⟨t.total_equity + value * allocGet aa "equity" / 100,
      t.total_bonds + value * allocGet aa "fixed_income" / 100,
      t.total_real_estate + value * allocGet aa "real_estate" / 100,
      t.total_commodities + value * allocGet aa "commodities" / 100,
      t.total_cash, t.total_value + value⟩

/-- The body of the outer `for account in ...` loop: add the cash balance to
`total_cash` and `total_value`, then fold the positions. -/
def allocAccStep (t : AllocTotals) (account : Account) : AllocTotals :=
  let cash := cashOr0 account.cash_balance
  account.positions.foldl allocPosStep
    ⟨t.total_equity, t.total_bonds, t.total_real_estate, t.total_commodities,
      t.total_cash + cash, t.total_value + cash⟩

/-- The accumulators of `calculate_asset_allocation` after both loops. -/
def allocTotals (portfolio_data : Portfolio) : AllocTotals :=
  portfolio_data.accounts.foldl allocAccStep ⟨0, 0, 0, 0, 0, 0⟩

/-- Embeds `RetirementCalculator.calculate_asset_allocation`: the all-zero dict
when `total_value == 0`, otherwise each accumulator divided by
`total_value`. -/
def calculate_asset_allocation (portfolio_data : Portfolio) : AssetAllocation :=
  let t := allocTotals portfolio_data
  if t.total_value = 0 then ⟨0, 0, 0, 0, 0⟩
  else
    ⟨t.total_equity / t.total_value, t.total_bonds / t.total_value,
      t.total_real_estate / t.total_value, t.total_commodities / t.total_value,
      t.total_cash / t.total_value⟩

/-- The five buckets of an allocation, summed. -/
def bucketSum (a : AssetAllocation) : ℚ :=
  a.equity + a.bonds + a.real_estate + a.commodities + a.cash

/-- The dict returned by `calculate_social_security_benefit`. -/
structure SocialSecurityBenefit where
  claiming_age : Nat
  full_retirement_age : Nat
  benefit_at_fra : ℚ
  benefit_at_claiming_age : ℚ
  monthly_benefit : ℚ
  annual_benefit : ℚ
deriving DecidableEq, Repr

/-- Embeds `RetirementCalculator.calculate_social_security_benefit`. `current_age`
is accepted (as in the source) but does not influence the computation;
`claiming_age = none` models the Python `None` default, replaced by the
full retirement age. The float literals `6.67`, `5`, `0.08` are the exact
rationals `667/100`, `5`, `8/100`. -/
def calculate_social_security_benefit (current_age : Nat)
    (full_retirement_age : Nat) (estimated_benefit_at_fra : ℚ)
    (claiming_age : Option Nat) : SocialSecurityBenefit :=
  let ca := claiming_age.getD full_retirement_age
  let benefit :=
    if ca < full_retirement_age then
      let months_before_fra : ℚ := ((full_retirement_age - ca : Nat) : ℚ) * 12
      let reduction :=
        if months_before_fra ≤ 36 then
          months_before_fra * (667 / 100 / 12) / 100
        else
          (36 * (667 / 100) / 12 + (months_before_fra - 36) * 5 / 12) / 100
      estimated_benefit_at_fra * (1 - reduction)
    else if full_retirement_age < ca then
      let years_after_fra : Nat := min (ca - full_retirement_age) (70 - full_retirement_age)
      let increase : ℚ := (years_after_fra : ℚ) * (8 / 100)
      estimated_benefit_at_fra * (1 + increase)
    else
      estimated_benefit_at_fra
  ⟨ca, full_retirement_age, estimated_benefit_at_fra, benefit, benefit / 12, benefit⟩

/-- The sparse `rmd_divisors` dict of `calculate_rmd` (IRS-style Uniform
Lifetime divisors at anchor ages). -/
def rmd_divisors : List (Nat × ℚ) :=
  [(72, 274/10), (73, 265/10), (74, 255/10), (75, 246/10),
   (76, 237/10), (77, 229/10), (78, 220/10), (79, 211/10),
   (80, 202/10), (81, 193/10), (82, 184/10), (83, 175/10),
   (84, 166/10), (85, 158/10), (90, 127/10), (95, 96/10),
   (100, 63/10), (105, 41/10), (110, 25/10), (115, 19/10)]

/-- The divisor `calculate_rmd` uses for an age ≥ 72: the table value when
the age is an anchor, otherwise the code's piecewise-linear interpolation. -/
def rmdDivisor (age : Nat) : ℚ :=
  match rmd_divisors.lookup age with
  | some d => d
  | none =>
    if age < 85 then 274/10 - ((age : ℚ) - 72) * (8/10)
    else if age < 100 then 158/10 - ((age : ℚ) - 85) * (3/10)
    else 63/10 - ((age : ℚ) - 100) * (15/100)

/-- Embeds `RetirementCalculator.calculate_rmd`: 0 before age 72, otherwise
`account_balance / divisor`. -/
def calculate_rmd (account_balance : ℚ) (age : Nat) : ℚ :=
  if age < 72 then 0 else account_balance / rmdDivisor age

/-!
## Theorems

Helper lemmas first (shared), then one theorem per claim, each preceded by a
doc comment naming the claim. Mathlib seals the `Rat` arithmetic operations
against unfolding; concrete evaluations of the embedded code (`decide`)
need them reducible again.
-/

unseal Rat.add Rat.sub Rat.mul Rat.inv

/-- Rewrites `calculate_debt_avalanche` as an `Option.map` over the loop's outcome. -/
theorem avalanche_eq (debts : List Debt) (mp : ℚ) (fuel : Nat) :
    calculate_debt_avalanche debts mp fuel =
      (runLoop (sortByRateDesc debts) mp fuel ((sortByRateDesc debts).map Debt.balance) 0 [] 0).map
        (fun r => ⟨"debt_avalanche", (sortByRateDesc debts).map Debt.name, r.2.1, r.1,
          (debts.map Debt.balance).sum + r.2.1, r.2.2⟩) := by
  unfold calculate_debt_avalanche
  cases hr : runLoop (sortByRateDesc debts) mp fuel ((sortByRateDesc debts).map Debt.balance) 0 [] 0 with
  | none => rfl
  | some r => rcases r with ⟨m, t, p⟩; rfl

/-- Rewrites `calculate_debt_snowball` as an `Option.map` over the loop's outcome. -/
theorem snowball_eq (debts : List Debt) (mp : ℚ) (fuel : Nat) :
    calculate_debt_snowball debts mp fuel =
      (runLoop (sortByBalanceAsc debts) mp fuel ((sortByBalanceAsc debts).map Debt.balance) 0 [] 0).map
        (fun r => ⟨"debt_snowball", (sortByBalanceAsc debts).map Debt.name, r.2.1, r.1,
          (debts.map Debt.balance).sum + r.2.1, r.2.2⟩) := by
  unfold calculate_debt_snowball
  cases hr : runLoop (sortByBalanceAsc debts) mp fuel ((sortByBalanceAsc debts).map Debt.balance) 0 [] 0 with
  | none => rfl
  | some r => rcases r with ⟨m, t, p⟩; rfl

/-- A single debt with positive balance, zero minimum payment and zero
monthly budget is a fixed point of one simulated month: the minimum phase
pays `min(0, balance) = 0` and the zero leftover blocks the extra phase. -/
theorem monthStep_stuck (m : Nat) :
    monthStep [⟨"A", 100, 0, 0⟩] 0 m [100] 0 [] = ([100], 0, []) := by
  norm_num [monthStep, payMins, payExtra]

/-- On the stuck input the loop condition stays true forever: every fuel
bound is exhausted without termination. -/
theorem runLoop_stuck : ∀ (fuel month : Nat),
    runLoop [⟨"A", 100, 0, 0⟩] 0 fuel [100] 0 [] month = none := by
  intro fuel
  induction fuel with
  | zero =>
    intro month
    simp only [runLoop]
    rw [if_pos (by decide)]
  | succ n ih =>
    intro month
    simp only [runLoop]
    rw [if_pos (by decide)]
    simp only [monthStep_stuck]
    exact ih (month + 1)

/-- Claim C1. The claim says both strategy simulations cap iteration and
surface an "insufficient payment" result, i.e. terminate on every input.
The code has no such cap: on the debt list `[{name A, balance 100,
interest_rate 0, minimum_payment 0}]` with monthly payment 0 the state is a
fixed point of the month transition, the `while any(balance > 0)` condition
never turns false, and the simulation runs out of any fuel bound — the
source loops forever. -/
theorem debt_engine_unbounded_iteration (fuel : Nat) :
    calculate_debt_avalanche [⟨"A", 100, 0, 0⟩] 0 fuel = none ∧
    calculate_debt_snowball [⟨"A", 100, 0, 0⟩] 0 fuel = none := by
  constructor
  · rw [avalanche_eq]
    rw [show sortByRateDesc [⟨"A", 100, 0, 0⟩] = [⟨"A", 100, 0, 0⟩] from rfl]
    rw [show ([⟨"A", 100, 0, 0⟩] : List Debt).map Debt.balance = [100] from rfl]
    rw [runLoop_stuck fuel 0]
    rfl
  · rw [snowball_eq]
    rw [show sortByBalanceAsc [⟨"A", 100, 0, 0⟩] = [⟨"A", 100, 0, 0⟩] from rfl]
    rw [show ([⟨"A", 100, 0, 0⟩] : List Debt).map Debt.balance = [100] from rfl]
    rw [runLoop_stuck fuel 0]
    rfl

/-- Claim C2. Money conservation: whenever a strategy simulation terminates,
the returned `total_paid` equals the sum of the initial balances plus the
returned `total_interest` — here exactly, in the rational model, which is
stronger than the claimed 1e-6 relative tolerance. -/
theorem debt_money_conservation (debts : List Debt) (mp : ℚ) (fuel : Nat)
    (ra rs : StrategyResult)
    (ha : calculate_debt_avalanche debts mp fuel = some ra)
    (hs : calculate_debt_snowball debts mp fuel = some rs) :
    ra.total_paid = (debts.map Debt.balance).sum + ra.total_interest ∧
    rs.total_paid = (debts.map Debt.balance).sum + rs.total_interest := by
  constructor
  · rw [avalanche_eq] at ha
    cases hr : runLoop (sortByRateDesc debts) mp fuel ((sortByRateDesc debts).map Debt.balance) 0 [] 0 with
    | none => rw [hr] at ha; cases ha
    | some r =>
      rw [hr] at ha
      rcases r with ⟨m, t, p⟩
      injection ha with ha
      rw [← ha]
  · rw [snowball_eq] at hs
    cases hr : runLoop (sortByBalanceAsc debts) mp fuel ((sortByBalanceAsc debts).map Debt.balance) 0 [] 0 with
    | none => rw [hr] at hs; cases hs
    | some r =>
      rw [hr] at hs
      rcases r with ⟨m, t, p⟩
      injection hs with hs
      rw [← hs]

/-- Witness for C2 at a concrete input on which both simulations finish. -/
theorem debt_money_conservation_witness :
    (⟨"debt_avalanche", ["A"], 0, 1, 100, [⟨"A", 1, 100⟩]⟩ : StrategyResult).total_paid
        = ([(⟨"A", 100, 0, 0⟩ : Debt)].map Debt.balance).sum
          + (⟨"debt_avalanche", ["A"], 0, 1, 100, [⟨"A", 1, 100⟩]⟩ : StrategyResult).total_interest ∧
    (⟨"debt_snowball", ["A"], 0, 1, 100, [⟨"A", 1, 100⟩]⟩ : StrategyResult).total_paid
        = ([(⟨"A", 100, 0, 0⟩ : Debt)].map Debt.balance).sum
          + (⟨"debt_snowball", ["A"], 0, 1, 100, [⟨"A", 1, 100⟩]⟩ : StrategyResult).total_interest :=
  debt_money_conservation [⟨"A", 100, 0, 0⟩] 100 10
    ⟨"debt_avalanche", ["A"], 0, 1, 100, [⟨"A", 1, 100⟩]⟩
    ⟨"debt_snowball", ["A"], 0, 1, 100, [⟨"A", 1, 100⟩]⟩
    (by decide) (by decide)

/-- Claim C9. Monthly mechanics shared by both strategies: (i) the minimum
phase reduces every debt with positive balance by
`min(minimum_payment, balance)` unconditionally; (ii) the total it deducts
is the sum of those minimum payments, with no cap at `monthly_payment`;
(iii) when the leftover pool is ≤ 0 the extra phase is inert — no interest
accrues on any debt and no balance changes; (iv) at a concrete input the
minimum phase deducts 70 against a budget of 50, driving the pool to −20. -/
theorem month_minimums_unconditional_and_interest_guard :
    (∀ (ds : List Debt) (bs : List ℚ),
        (payMins ds bs).1 =
          List.zipWith (fun d b => if 0 < b then b - min d.minimum_payment b else b) ds bs) ∧
    (∀ (ds : List Debt) (bs : List ℚ),
        (payMins ds bs).2 =
          (List.zipWith (fun d b => if 0 < b then min d.minimum_payment b else 0) ds bs).sum) ∧
    (∀ (month : Nat) (ds : List Debt) (bs : List ℚ) (avail ti : ℚ) (plan : List PayoffEntry),
        bs.length = ds.length → avail ≤ 0 →
        payExtra month ds bs avail ti plan = ⟨bs, avail, ti, plan⟩) ∧
    ((payMins [⟨"A", 100, 0, 30⟩, ⟨"B", 100, 0, 40⟩] [100, 100]).2 = 70 ∧
      (50 : ℚ) < 70 ∧
      50 - (payMins [⟨"A", 100, 0, 30⟩, ⟨"B", 100, 0, 40⟩] [100, 100]).2 < 0) := by
  refine ⟨?_, ?_, ?_, by decide, by decide, by decide⟩
  · intro ds
    induction ds with
    | nil => intro bs; simp [payMins]
    | cons d ds ih =>
      intro bs
      cases bs with
      | nil => simp [payMins]
      | cons b bs =>
        simp only [payMins, List.zipWith]
        by_cases hb : 0 < b
        · rw [if_pos hb, if_pos hb, ih]
        · rw [if_neg hb, if_neg hb, ih]
  · intro ds
    induction ds with
    | nil => intro bs; simp [payMins]
    | cons d ds ih =>
      intro bs
      cases bs with
      | nil => simp [payMins]
      | cons b bs =>
        simp only [payMins, List.zipWith, List.sum_cons]
        by_cases hb : 0 < b
        · rw [if_pos hb, if_pos hb, ih, add_comm]
        · rw [if_neg hb, if_neg hb, ih, zero_add]
  · intro month ds
    induction ds with
    | nil =>
      intro bs avail ti plan hlen _
      rw [List.length_nil, List.length_eq_zero] at hlen
      subst hlen
      rfl
    | cons d ds ih =>
      intro bs avail ti plan hlen hav
      cases bs with
      | nil => simp at hlen
      | cons b bs =>
        simp only [List.length_cons, Nat.succ.injEq] at hlen
        simp only [payExtra]
        rw [if_neg (by rintro ⟨-, h⟩; exact absurd hav (not_le.mpr h))]
        rw [ih bs avail ti plan hlen hav]

/-- Witness for C9: the extra phase with a negative pool leaves balances,
pool, accumulated interest and plan untouched. -/
theorem month_minimums_unconditional_and_interest_guard_witness :
    payExtra 1 [⟨"A", 100, 24, 30⟩] [70] (-20) 5 [] = ⟨[70], -20, 5, []⟩ :=
  month_minimums_unconditional_and_interest_guard.2.2.1 1
    [⟨"A", 100, 24, 30⟩] [70] (-20) 5 [] (by decide) (by norm_num)

/-- Claim C10. On the empty debt list `compare_strategies` fails (`max()` over
the empty rate sequence raises `ValueError`, modelled as `none`), while both
strategy calculators return normally with zero months, zero interest and
zero total paid. -/
theorem compare_strategies_empty_error (mp : ℚ) (fuel : Nat) :
    compare_strategies [] mp fuel = none ∧
    calculate_debt_avalanche [] mp fuel = some ⟨"debt_avalanche", [], 0, 0, 0, []⟩ ∧
    calculate_debt_snowball [] mp fuel = some ⟨"debt_snowball", [], 0, 0, 0, []⟩ := by
  have hrun : runLoop [] mp fuel [] 0 [] 0 = some (0, 0, []) := by
    cases fuel <;> rfl
  have hava : calculate_debt_avalanche [] mp fuel = some ⟨"debt_avalanche", [], 0, 0, 0, []⟩ := by
    rw [avalanche_eq]
    rw [show sortByRateDesc [] = ([] : List Debt) from rfl]
    rw [show (([] : List Debt).map Debt.balance) = ([] : List ℚ) from rfl]
    rw [hrun]
    norm_num
  have hsnow : calculate_debt_snowball [] mp fuel = some ⟨"debt_snowball", [], 0, 0, 0, []⟩ := by
    rw [snowball_eq]
    rw [show sortByBalanceAsc [] = ([] : List Debt) from rfl]
    rw [show (([] : List Debt).map Debt.balance) = ([] : List ℚ) from rfl]
    rw [hrun]
    norm_num
  refine ⟨?_, hava, hsnow⟩
  unfold compare_strategies
  rw [hava, hsnow]
  rfl

/-- Claim C8. `compare_strategies` on a non-empty debt list (for which both
strategy runs finish): `interest_savings` is snowball's total interest
minus avalanche's, and the recommendation is `"avalanche"` exactly when the
interest-rate spread `max(rate) - min(rate)` exceeds 3 percentage points,
otherwise `"snowball"`. -/
theorem compare_strategies_savings_and_recommendation
    (debts : List Debt) (mp : ℚ) (fuel : Nat)
    (a s : StrategyResult) (mx mn : ℚ) (c : StrategyComparison)
    (ha : calculate_debt_avalanche debts mp fuel = some a)
    (hs : calculate_debt_snowball debts mp fuel = some s)
    (hmx : maxInterestRate debts = some mx)
    (hmn : minInterestRate debts = some mn)
    (hc : compare_strategies debts mp fuel = some c) :
    c.avalanche = a ∧ c.snowball = s ∧
    c.interest_savings = s.total_interest - a.total_interest ∧
    (c.recommended_strategy = "avalanche" ↔ 3 < mx - mn) ∧
    (c.recommended_strategy = "snowball" ↔ ¬ 3 < mx - mn) := by
  unfold compare_strategies at hc
  rw [ha, hs, hmx, hmn] at hc
  injection hc with hc
  subst hc
  refine ⟨rfl, rfl, rfl, ?_, ?_⟩ <;> by_cases h : 3 < mx - mn <;> simp [h]

/-- Witness for C8 on a one-debt list (spread 0, so snowball is
recommended); both simulations finish in 3 months with interest 161/192. -/
theorem compare_strategies_savings_and_recommendation_witness :
    (⟨⟨"debt_avalanche", ["A"], 161/192, 3, 19361/192, []⟩,
      ⟨"debt_snowball", ["A"], 161/192, 3, 19361/192, []⟩,
      0, 0, "snowball"⟩ : StrategyComparison).avalanche
        = ⟨"debt_avalanche", ["A"], 161/192, 3, 19361/192, []⟩ ∧
    (⟨⟨"debt_avalanche", ["A"], 161/192, 3, 19361/192, []⟩,
      ⟨"debt_snowball", ["A"], 161/192, 3, 19361/192, []⟩,
      0, 0, "snowball"⟩ : StrategyComparison).snowball
        = ⟨"debt_snowball", ["A"], 161/192, 3, 19361/192, []⟩ ∧
    (⟨⟨"debt_avalanche", ["A"], 161/192, 3, 19361/192, []⟩,
      ⟨"debt_snowball", ["A"], 161/192, 3, 19361/192, []⟩,
      0, 0, "snowball"⟩ : StrategyComparison).interest_savings
        = (⟨"debt_snowball", ["A"], 161/192, 3, 19361/192, []⟩ : StrategyResult).total_interest
          - (⟨"debt_avalanche", ["A"], 161/192, 3, 19361/192, []⟩ : StrategyResult).total_interest ∧
    ((⟨⟨"debt_avalanche", ["A"], 161/192, 3, 19361/192, []⟩,
      ⟨"debt_snowball", ["A"], 161/192, 3, 19361/192, []⟩,
      0, 0, "snowball"⟩ : StrategyComparison).recommended_strategy = "avalanche" ↔ 3 < (10 : ℚ) - 10) ∧
    ((⟨⟨"debt_avalanche", ["A"], 161/192, 3, 19361/192, []⟩,
      ⟨"debt_snowball", ["A"], 161/192, 3, 19361/192, []⟩,
      0, 0, "snowball"⟩ : StrategyComparison).recommended_strategy = "snowball" ↔ ¬ 3 < (10 : ℚ) - 10) :=
  compare_strategies_savings_and_recommendation
    [⟨"A", 100, 10, 25⟩] 50 10
    ⟨"debt_avalanche", ["A"], 161/192, 3, 19361/192, []⟩
    ⟨"debt_snowball", ["A"], 161/192, 3, 19361/192, []⟩
    10 10
    ⟨⟨"debt_avalanche", ["A"], 161/192, 3, 19361/192, []⟩,
      ⟨"debt_snowball", ["A"], 161/192, 3, 19361/192, []⟩,
      0, 0, "snowball"⟩
    (by decide) (by decide) (by decide) (by decide) (by decide)

/-- Claim C3, counterexample. One debt `{A, balance 1000, rate 60%/yr,
minimum 100}`: with payment 100 the minimums always consume the whole
budget, the leftover is 0, interest never accrues, and the debt is gone in
10 months with 0 interest; with the *larger* payment 101 the positive
leftover makes interest accrue every month, giving 14 months and positive
total interest — both `months_to_payoff` and `total_interest` increased. -/
theorem payment_monotonicity_counterexample :
    (calculate_debt_avalanche [⟨"A", 1000, 60, 100⟩] 100 600).map
        StrategyResult.months_to_payoff = some 10 ∧
    (calculate_debt_avalanche [⟨"A", 1000, 60, 100⟩] 100 600).map
        StrategyResult.total_interest = some 0 ∧
    (calculate_debt_avalanche [⟨"A", 1000, 60, 100⟩] 101 600).map
        StrategyResult.months_to_payoff = some 14 ∧
    (calculate_debt_avalanche [⟨"A", 1000, 60, 100⟩] 101 600).map
        (fun r => decide (0 < r.total_interest)) = some true := by
  refine ⟨by decide, by decide, by decide, by decide⟩

/-- Membership is preserved by stable insertion. -/
theorem mem_insertSorted {le : Debt → Debt → Bool} {x a : Debt} :
    ∀ {l : List Debt}, a ∈ insertSorted le x l ↔ a = x ∨ a ∈ l := by
  intro l
  induction l with
  | nil => simp [insertSorted]
  | cons y ys ih =>
    simp only [insertSorted]
    by_cases h : le x y
    · rw [if_pos h]
      simp [List.mem_cons]
    · rw [if_neg h]
      simp only [List.mem_cons, ih]
      tauto

/-- Membership is preserved by the stable sort. -/
theorem mem_stableSort {le : Debt → Debt → Bool} {a : Debt} :
    ∀ {xs : List Debt}, a ∈ stableSort le xs ↔ a ∈ xs := by
  intro xs
  induction xs with
  | nil => simp [stableSort]
  | cons x xs ih =>
    show a ∈ insertSorted le x (stableSort le xs) ↔ _
    rw [mem_insertSorted]
    simp [ih, List.mem_cons]

/-- Membership through the avalanche ordering. -/
theorem mem_sortByRateDesc {a : Debt} {xs : List Debt} :
    a ∈ sortByRateDesc xs ↔ a ∈ xs :=
  mem_stableSort

/-- Membership through the snowball ordering. -/
theorem mem_sortByBalanceAsc {a : Debt} {xs : List Debt} :
    a ∈ sortByBalanceAsc xs ↔ a ∈ xs :=
  mem_stableSort

/-- Removing `min m x` from `x` is monotone in `x`. -/
theorem sub_min_mono (m x y : ℚ) (h : x ≤ y) : x - min m x ≤ y - min m y := by
  rcases le_total m x with h1 | h1 <;> rcases le_total m y with h2 | h2
  · rw [min_eq_left h1, min_eq_left h2]
    linarith
  · rw [min_eq_left h1, min_eq_right h2]
    linarith
  · rw [min_eq_right h1, min_eq_left h2]
    linarith
  · rw [min_eq_right h1, min_eq_right h2]
    linarith

/-- The minimum-payment phase is monotone: pointwise-smaller balances stay
pointwise smaller, and the total minimum paid is no larger (minimum
payments must be non-negative). -/
theorem payMins_mono : ∀ (ds : List Debt) (bs1 bs2 : List ℚ),
    (∀ d ∈ ds, 0 ≤ d.minimum_payment) →
    List.Forall₂ (· ≤ ·) bs2 bs1 →
    List.Forall₂ (· ≤ ·) (payMins ds bs2).1 (payMins ds bs1).1 ∧
      (payMins ds bs2).2 ≤ (payMins ds bs1).2 := by
  intro ds
  induction ds with
  | nil =>
    intro bs1 bs2 _ _
    exact ⟨List.Forall₂.nil, le_refl 0⟩
  | cons d ds ih =>
    intro bs1 bs2 hm hf
    have hmd : 0 ≤ d.minimum_payment := hm d (List.mem_cons_self d ds)
    have hm' : ∀ x ∈ ds, 0 ≤ x.minimum_payment :=
      fun x hx => hm x (List.mem_cons_of_mem d hx)
    cases hf with
    | nil => exact ⟨List.Forall₂.nil, le_refl 0⟩
    | @cons b2 b1 t2 t1 hb hrest =>
      obtain ⟨ihb, ihp⟩ := ih t1 t2 hm' hrest
      simp only [payMins]
      by_cases h2 : 0 < b2 <;> by_cases h1 : 0 < b1
      · rw [if_pos h2, if_pos h1]
        refine ⟨List.Forall₂.cons (sub_min_mono _ _ _ hb) ihb, ?_⟩
        have := min_le_min (le_refl d.minimum_payment) hb
        dsimp only
        linarith
      · exact absurd (lt_of_lt_of_le h2 hb) h1
      · rw [if_neg h2, if_pos h1]
        have hmin1 : min d.minimum_payment b1 ≤ b1 := min_le_right _ _
        have hmin0 : 0 ≤ min d.minimum_payment b1 := le_min hmd (le_of_lt h1)
        refine ⟨List.Forall₂.cons (by push_neg at h2; linarith) ihb, ?_⟩
        dsimp only
        linarith
      · rw [if_neg h2, if_neg h1]
        exact ⟨List.Forall₂.cons hb ihb, ihp⟩

/-- With a zero interest rate the extra phase adds no interest: its
accumulated `total_interest` comes out unchanged. -/
theorem payExtra_ti_zero : ∀ (ds : List Debt) (bs : List ℚ)
    (avail ti : ℚ) (plan : List PayoffEntry) (m : Nat),
    (∀ d ∈ ds, d.interest_rate = 0) →
    (payExtra m ds bs avail ti plan).total_interest = ti := by
  intro ds
  induction ds with
  | nil => intro bs avail ti plan m _; cases bs <;> rfl
  | cons d ds ih =>
    intro bs avail ti plan m hz
    have hz0 : d.interest_rate = 0 := hz d (List.mem_cons_self d ds)
    have hz' : ∀ x ∈ ds, x.interest_rate = 0 :=
      fun x hx => hz x (List.mem_cons_of_mem d hx)
    cases bs with
    | nil => rfl
    | cons b t =>
      have e : b * (d.interest_rate / 100 / 12) = 0 := by rw [hz0]; ring
      simp only [payExtra, e, add_zero]
      by_cases hg : 0 < b ∧ 0 < avail
      · rw [if_pos hg]
        exact ih _ _ _ _ _ hz'
      · rw [if_neg hg]
        exact ih _ _ _ _ _ hz'

/-- With zero interest rates the extra phase is monotone: pointwise-smaller
balances with a larger leftover pool stay pointwise smaller, and the
leftover that comes out stays larger. The accrued-interest and plan
accumulators are irrelevant to the balances and are quantified freely. -/
theorem payExtra_mono_zero : ∀ (ds : List Debt) (bs1 bs2 : List ℚ)
    (m1 m2 : Nat) (a1 a2 ti1 ti2 : ℚ) (p1 p2 : List PayoffEntry),
    (∀ d ∈ ds, d.interest_rate = 0) →
    List.Forall₂ (· ≤ ·) bs2 bs1 → a1 ≤ a2 →
    List.Forall₂ (· ≤ ·) (payExtra m2 ds bs2 a2 ti2 p2).balances
        (payExtra m1 ds bs1 a1 ti1 p1).balances ∧
      (payExtra m1 ds bs1 a1 ti1 p1).available ≤ (payExtra m2 ds bs2 a2 ti2 p2).available := by
  intro ds
  induction ds with
  | nil =>
    intro bs1 bs2 m1 m2 a1 a2 ti1 ti2 p1 p2 _ _ ha
    cases bs1 <;> cases bs2 <;> exact ⟨List.Forall₂.nil, ha⟩
  | cons d ds ih =>
    intro bs1 bs2 m1 m2 a1 a2 ti1 ti2 p1 p2 hz hf ha
    have hz0 : d.interest_rate = 0 := hz d (List.mem_cons_self d ds)
    have hz' : ∀ x ∈ ds, x.interest_rate = 0 :=
      fun x hx => hz x (List.mem_cons_of_mem d hx)
    cases hf with
    | nil => exact ⟨List.Forall₂.nil, ha⟩
    | @cons b2 b1 t2 t1 hb hrest =>
      have e2 : b2 * (d.interest_rate / 100 / 12) = 0 := by rw [hz0]; ring
      have e1 : b1 * (d.interest_rate / 100 / 12) = 0 := by rw [hz0]; ring
      simp only [payExtra, e1, e2, add_zero]
      by_cases hg2 : 0 < b2 ∧ 0 < a2 <;> by_cases hg1 : 0 < b1 ∧ 0 < a1
      · -- both sides pay extra
        rw [if_pos hg2, if_pos hg1]
        obtain ⟨hb2, ha2⟩ := hg2
        obtain ⟨hb1, ha1⟩ := hg1
        have hhead : b2 - min a2 b2 ≤ b1 - min a1 b1 := by
          rcases le_total a2 b2 with c2 | c2 <;> rcases le_total a1 b1 with c1 | c1
          · rw [min_eq_left c2, min_eq_left c1]; linarith
          · rw [min_eq_left c2, min_eq_right c1]; linarith
          · rw [min_eq_right c2, min_eq_left c1]; linarith
          · rw [min_eq_right c2, min_eq_right c1]; linarith
        have havail : a1 - min a1 b1 ≤ a2 - min a2 b2 := by
          rcases le_total a2 b2 with c2 | c2 <;> rcases le_total a1 b1 with c1 | c1
          · rw [min_eq_left c2, min_eq_left c1]; linarith
          · rw [min_eq_left c2, min_eq_right c1]; linarith
          · rw [min_eq_right c2, min_eq_left c1]; linarith
          · rw [min_eq_right c2, min_eq_right c1]; linarith
        obtain ⟨ihb, iha⟩ := ih t1 t2 m1 m2 _ _ ti1 ti2 _ _ hz' hrest havail
        exact ⟨List.Forall₂.cons hhead ihb, iha⟩
      · -- only the larger-pool side pays
        rw [if_pos hg2, if_neg hg1]
        obtain ⟨hb2, ha2⟩ := hg2
        have hb1 : 0 < b1 := lt_of_lt_of_le hb2 hb
        have ha1 : a1 ≤ 0 := by
          by_contra hcon
          exact hg1 ⟨hb1, not_le.mp hcon⟩
        have hmin0 : 0 ≤ min a2 b2 := le_min (le_of_lt ha2) (le_of_lt hb2)
        have hminA : min a2 b2 ≤ a2 := min_le_left _ _
        have hhead : b2 - min a2 b2 ≤ b1 := by linarith
        have havail : a1 ≤ a2 - min a2 b2 := by linarith
        obtain ⟨ihb, iha⟩ := ih t1 t2 m1 m2 _ _ ti1 ti2 _ _ hz' hrest havail
        exact ⟨List.Forall₂.cons hhead ihb, iha⟩
      · -- only the smaller-pool side pays (its balance is already ≤ 0)
        rw [if_neg hg2, if_pos hg1]
        obtain ⟨hb1, ha1⟩ := hg1
        have hb2 : b2 ≤ 0 := by
          by_contra hcon
          exact hg2 ⟨not_le.mp hcon, lt_of_lt_of_le ha1 ha⟩
        have hminB : min a1 b1 ≤ b1 := min_le_right _ _
        have hmin0 : 0 ≤ min a1 b1 := le_min (le_of_lt ha1) (le_of_lt hb1)
        have hhead : b2 ≤ b1 - min a1 b1 := by linarith
        have havail : a1 - min a1 b1 ≤ a2 := by linarith
        obtain ⟨ihb, iha⟩ := ih t1 t2 m1 m2 _ _ ti1 ti2 _ _ hz' hrest havail
        exact ⟨List.Forall₂.cons hhead ihb, iha⟩
      · -- neither side pays
        rw [if_neg hg2, if_neg hg1]
        obtain ⟨ihb, iha⟩ := ih t1 t2 m1 m2 _ _ ti1 ti2 _ _ hz' hrest ha
        exact ⟨List.Forall₂.cons hb ihb, iha⟩

/-- One whole month is monotone (zero rates, non-negative minimums): a
larger budget keeps every balance pointwise no larger. -/
theorem monthStep_mono_zero (sd : List Debt) (p1 p2 : ℚ) (m1 m2 : Nat)
    (bs1 bs2 : List ℚ) (ti1 ti2 : ℚ) (pl1 pl2 : List PayoffEntry)
    (hz : ∀ d ∈ sd, d.interest_rate = 0)
    (hm : ∀ d ∈ sd, 0 ≤ d.minimum_payment)
    (hp : p1 ≤ p2)
    (hb : List.Forall₂ (· ≤ ·) bs2 bs1) :
    List.Forall₂ (· ≤ ·) (monthStep sd p2 m2 bs2 ti2 pl2).1
      (monthStep sd p1 m1 bs1 ti1 pl1).1 := by
  obtain ⟨hfb, hfp⟩ := payMins_mono sd bs1 bs2 hm hb
  have ha : p1 - (payMins sd bs1).2 ≤ p2 - (payMins sd bs2).2 := by linarith
  exact (payExtra_mono_zero sd _ _ m1 m2 _ _ ti1 ti2 pl1 pl2 hz hfb ha).1

/-- One whole month accrues no interest when every rate is zero. -/
theorem monthStep_ti_zero (sd : List Debt) (mp : ℚ) (m : Nat)
    (bals : List ℚ) (ti : ℚ) (plan : List PayoffEntry)
    (hz : ∀ d ∈ sd, d.interest_rate = 0) :
    (monthStep sd mp m bals ti plan).2.1 = ti :=
  payExtra_ti_zero sd _ _ ti _ m hz

/-- If every balance on the larger side is ≤ 0 then so is every balance on
the pointwise-smaller side: the loop condition turning false transfers. -/
theorem any_pos_eq_false_mono : ∀ {bs1 bs2 : List ℚ},
    List.Forall₂ (· ≤ ·) bs2 bs1 →
    bs1.any (fun b => decide (0 < b)) = false →
    bs2.any (fun b => decide (0 < b)) = false := by
  intro bs1 bs2 hf
  induction hf with
  | nil => intro h; rfl
  | @cons b2 b1 t2 t1 hb hrest ih =>
    intro h
    simp only [List.any_cons, Bool.or_eq_false_iff, decide_eq_false_iff_not, not_lt] at h ⊢
    exact ⟨le_trans hb h.1, ih h.2⟩

/-- The month counter returned by the loop is at least the month it started
from. -/
theorem runLoop_month_le (sd : List Debt) (mp : ℚ) :
    ∀ (fuel : Nat) (bs : List ℚ) (ti : ℚ) (pl : List PayoffEntry)
      (month m : Nat) (t : ℚ) (q : List PayoffEntry),
      runLoop sd mp fuel bs ti pl month = some (m, t, q) → month ≤ m := by
  intro fuel
  induction fuel with
  | zero =>
    intro bs ti pl month m t q h
    simp only [runLoop] at h
    split at h
    · cases h
    · injection h with h'
      simp only [Prod.mk.injEq] at h'
      omega
  | succ n ih =>
    intro bs ti pl month m t q h
    simp only [runLoop] at h
    split at h
    · have := ih _ _ _ (month + 1) m t q h
      omega
    · injection h with h'
      simp only [Prod.mk.injEq] at h'
      omega

/-- With zero rates the loop's accumulated interest never changes. -/
theorem runLoop_ti_zero (sd : List Debt) (mp : ℚ)
    (hz : ∀ d ∈ sd, d.interest_rate = 0) :
    ∀ (fuel : Nat) (bs : List ℚ) (ti : ℚ) (pl : List PayoffEntry)
      (month m : Nat) (t : ℚ) (q : List PayoffEntry),
      runLoop sd mp fuel bs ti pl month = some (m, t, q) → t = ti := by
  intro fuel
  induction fuel with
  | zero =>
    intro bs ti pl month m t q h
    simp only [runLoop] at h
    split at h
    · cases h
    · injection h with h'
      simp only [Prod.mk.injEq] at h'
      exact h'.2.1.symm
  | succ n ih =>
    intro bs ti pl month m t q h
    simp only [runLoop] at h
    split at h
    · have := ih _ _ _ (month + 1) m t q h
      rw [this, monthStep_ti_zero sd mp (month + 1) bs ti pl hz]
    · injection h with h'
      simp only [Prod.mk.injEq] at h'
      exact h'.2.1.symm

/-- Core monotonicity: with zero rates and non-negative minimums, if the
loop with budget `p1` finishes, the loop with budget `p2 ≥ p1` from
pointwise-smaller balances also finishes within the same fuel, no later. -/
theorem runLoop_months_mono (sd : List Debt) (p1 p2 : ℚ)
    (hz : ∀ d ∈ sd, d.interest_rate = 0)
    (hm : ∀ d ∈ sd, 0 ≤ d.minimum_payment)
    (hp : p1 ≤ p2) :
    ∀ (fuel : Nat) (bs1 bs2 : List ℚ) (ti1 ti2 : ℚ)
      (pl1 pl2 : List PayoffEntry) (month : Nat)
      (m1 : Nat) (t1 : ℚ) (q1 : List PayoffEntry),
      List.Forall₂ (· ≤ ·) bs2 bs1 →
      runLoop sd p1 fuel bs1 ti1 pl1 month = some (m1, t1, q1) →
      ∃ m2 t2 q2, runLoop sd p2 fuel bs2 ti2 pl2 month = some (m2, t2, q2) ∧ m2 ≤ m1 := by
  intro fuel
  induction fuel with
  | zero =>
    intro bs1 bs2 ti1 ti2 pl1 pl2 month m1 t1 q1 hf h
    simp only [runLoop] at h ⊢
    split at h
    · cases h
    · rename_i hc1
      rw [Bool.not_eq_true] at hc1
      injection h with h'
      simp only [Prod.mk.injEq] at h'
      rw [any_pos_eq_false_mono hf hc1]
      exact ⟨month, ti2, pl2, by simp, by omega⟩
  | succ n ih =>
    intro bs1 bs2 ti1 ti2 pl1 pl2 month m1 t1 q1 hf h
    simp only [runLoop] at h ⊢
    split at h
    · rename_i hc1
      by_cases hc2 : bs2.any (fun b => decide (0 < b)) = true
      · rw [if_pos hc2]
        have hstep := monthStep_mono_zero sd p1 p2 (month + 1) (month + 1)
          bs1 bs2 ti1 ti2 pl1 pl2 hz hm hp hf
        exact ih _ _ _ _ _ _ (month + 1) m1 t1 q1 hstep h
      · rw [if_neg hc2]
        have hm1 := runLoop_month_le sd p1 n _ _ _ (month + 1) m1 t1 q1 h
        exact ⟨month, ti2, pl2, rfl, by omega⟩
    · rename_i hc1
      rw [Bool.not_eq_true] at hc1
      injection h with h'
      simp only [Prod.mk.injEq] at h'
      rw [if_neg (by rw [any_pos_eq_false_mono hf hc1]; exact Bool.false_ne_true)]
      exact ⟨month, ti2, pl2, rfl, by omega⟩

/-- Claim C3, amended. The counterexample above shows the claim fails once
interest can accrue (raising the payment turns minimum-only months with a
zero leftover — in which the code accrues no interest at all — into months
with interest). On zero-rate debt lists (with the data model's
non-negative minimum payments) the claimed monotonicity holds: a larger
monthly payment never increases `months_to_payoff` or `total_interest`,
for either strategy. -/
theorem payment_monotonicity_zero_rate
    (debts : List Debt) (p1 p2 : ℚ) (fuel : Nat)
    (ra1 ra2 rs1 rs2 : StrategyResult)
    (hz : ∀ d ∈ debts, d.interest_rate = 0)
    (hm : ∀ d ∈ debts, 0 ≤ d.minimum_payment)
    (hp : p1 ≤ p2)
    (ha1 : calculate_debt_avalanche debts p1 fuel = some ra1)
    (ha2 : calculate_debt_avalanche debts p2 fuel = some ra2)
    (hs1 : calculate_debt_snowball debts p1 fuel = some rs1)
    (hs2 : calculate_debt_snowball debts p2 fuel = some rs2) :
    ra2.months_to_payoff ≤ ra1.months_to_payoff ∧
    ra2.total_interest ≤ ra1.total_interest ∧
    rs2.months_to_payoff ≤ rs1.months_to_payoff ∧
    rs2.total_interest ≤ rs1.total_interest := by
  have hza : ∀ d ∈ sortByRateDesc debts, d.interest_rate = 0 :=
    fun d hd => hz d (mem_sortByRateDesc.mp hd)
  have hma : ∀ d ∈ sortByRateDesc debts, 0 ≤ d.minimum_payment :=
    fun d hd => hm d (mem_sortByRateDesc.mp hd)
  have hzs : ∀ d ∈ sortByBalanceAsc debts, d.interest_rate = 0 :=
    fun d hd => hz d (mem_sortByBalanceAsc.mp hd)
  have hms : ∀ d ∈ sortByBalanceAsc debts, 0 ≤ d.minimum_payment :=
    fun d hd => hm d (mem_sortByBalanceAsc.mp hd)
  have hrefl : ∀ (l : List ℚ), List.Forall₂ (· ≤ ·) l l :=
    fun l => List.forall₂_same.mpr (fun x _ => le_refl x)
  rw [avalanche_eq] at ha1 ha2
  rw [snowball_eq] at hs1 hs2
  have main : ∀ (sd : List Debt) (r1 r2 : StrategyResult) (nm : String)
      (hzx : ∀ d ∈ sd, d.interest_rate = 0)
      (hmx : ∀ d ∈ sd, 0 ≤ d.minimum_payment),
      ((runLoop sd p1 fuel (sd.map Debt.balance) 0 [] 0).map
        (fun r => (⟨nm, sd.map Debt.name, r.2.1, r.1,
          (debts.map Debt.balance).sum + r.2.1, r.2.2⟩ : StrategyResult))) = some r1 →
      ((runLoop sd p2 fuel (sd.map Debt.balance) 0 [] 0).map
        (fun r => (⟨nm, sd.map Debt.name, r.2.1, r.1,
          (debts.map Debt.balance).sum + r.2.1, r.2.2⟩ : StrategyResult))) = some r2 →
      r2.months_to_payoff ≤ r1.months_to_payoff ∧
        r2.total_interest ≤ r1.total_interest := by
    intro sd r1 r2 nm hzx hmx h1 h2
    cases hr1 : runLoop sd p1 fuel (sd.map Debt.balance) 0 [] 0 with
    | none => rw [hr1] at h1; cases h1
    | some x1 =>
      cases hr2 : runLoop sd p2 fuel (sd.map Debt.balance) 0 [] 0 with
      | none => rw [hr2] at h2; cases h2
      | some x2 =>
        rw [hr1] at h1
        rw [hr2] at h2
        rcases x1 with ⟨m1, t1, q1⟩
        rcases x2 with ⟨m2, t2, q2⟩
        injection h1 with h1
        injection h2 with h2
        obtain ⟨m2', t2', q2', hrun2, hle⟩ :=
          runLoop_months_mono sd p1 p2 hzx hmx hp fuel
            (sd.map Debt.balance) (sd.map Debt.balance) 0 0 [] [] 0
            m1 t1 q1 (hrefl _) hr1
        rw [hr2] at hrun2
        injection hrun2 with hrun2
        simp only [Prod.mk.injEq] at hrun2
        have ht1 : t1 = 0 := runLoop_ti_zero sd p1 hzx fuel _ _ _ _ _ _ _ hr1
        have ht2 : t2 = 0 := runLoop_ti_zero sd p2 hzx fuel _ _ _ _ _ _ _ hr2
        rw [← h1, ← h2]
        refine ⟨?_, by rw [ht1, ht2]⟩
        show m2 ≤ m1
        omega
  obtain ⟨hA1, hA2⟩ := main (sortByRateDesc debts) ra1 ra2 "debt_avalanche" hza hma ha1 ha2
  obtain ⟨hS1, hS2⟩ := main (sortByBalanceAsc debts) rs1 rs2 "debt_snowball" hzs hms hs1 hs2
  exact ⟨hA1, hA2, hS1, hS2⟩

/-- Witness for the amended C3 at a concrete zero-rate input: payment 60
finishes in 3 months where payment 40 needs 4, and interest stays 0. -/
theorem payment_monotonicity_zero_rate_witness :
    (⟨"debt_avalanche", ["A", "B"], 0, 3, 150,
        [⟨"A", 2, 100⟩, ⟨"B", 3, 50⟩]⟩ : StrategyResult).months_to_payoff ≤
      (⟨"debt_avalanche", ["A", "B"], 0, 4, 150,
        [⟨"B", 4, 50⟩]⟩ : StrategyResult).months_to_payoff ∧
    (⟨"debt_avalanche", ["A", "B"], 0, 3, 150,
        [⟨"A", 2, 100⟩, ⟨"B", 3, 50⟩]⟩ : StrategyResult).total_interest ≤
      (⟨"debt_avalanche", ["A", "B"], 0, 4, 150,
        [⟨"B", 4, 50⟩]⟩ : StrategyResult).total_interest ∧
    (⟨"debt_snowball", ["B", "A"], 0, 3, 150,
        [⟨"B", 2, 50⟩]⟩ : StrategyResult).months_to_payoff ≤
      (⟨"debt_snowball", ["B", "A"], 0, 4, 150,
        [⟨"B", 4, 50⟩]⟩ : StrategyResult).months_to_payoff ∧
    (⟨"debt_snowball", ["B", "A"], 0, 3, 150,
        [⟨"B", 2, 50⟩]⟩ : StrategyResult).total_interest ≤
      (⟨"debt_snowball", ["B", "A"], 0, 4, 150,
        [⟨"B", 4, 50⟩]⟩ : StrategyResult).total_interest :=
  payment_monotonicity_zero_rate
    [⟨"A", 100, 0, 30⟩, ⟨"B", 50, 0, 10⟩] 40 60 20
    ⟨"debt_avalanche", ["A", "B"], 0, 4, 150, [⟨"B", 4, 50⟩]⟩
    ⟨"debt_avalanche", ["A", "B"], 0, 3, 150, [⟨"A", 2, 100⟩, ⟨"B", 3, 50⟩]⟩
    ⟨"debt_snowball", ["B", "A"], 0, 4, 150, [⟨"B", 4, 50⟩]⟩
    ⟨"debt_snowball", ["B", "A"], 0, 3, 150, [⟨"B", 2, 50⟩]⟩
    (by decide) (by decide) (by norm_num)
    (by decide) (by decide) (by decide) (by decide)

/-- Folding `acc + f x` over a list is adding the mapped sum. -/
theorem foldl_add_eq {α : Type} (f : α → ℚ) :
    ∀ (l : List α) (t : ℚ), l.foldl (fun acc x => acc + f x) t = t + (l.map f).sum := by
  intro l
  induction l with
  | nil => intro t; simp
  | cons x xs ih =>
    intro t
    simp only [List.foldl_cons, List.map_cons, List.sum_cons, ih]
    ring

/-- The nested accumulation loop of `calculate_portfolio_value` equals the
closed-form double sum. -/
theorem portfolio_value_eq_closed (pd : Portfolio) :
    calculate_portfolio_value pd = portfolio_value_closed pd := by
  unfold calculate_portfolio_value portfolio_value_closed
  have houter : ∀ (accs : List Account) (t : ℚ),
      accs.foldl
        (fun total account =>
          account.positions.foldl
            (fun tt position =>
              tt + quantityOr0 position.quantity * priceOr100 position.instrument.current_price)
            (total + cashOr0 account.cash_balance))
        t
      = t + (accs.map (fun account =>
          cashOr0 account.cash_balance +
            (account.positions.map (fun position =>
              quantityOr0 position.quantity * priceOr100 position.instrument.current_price)).sum)).sum := by
    intro accs
    induction accs with
    | nil => intro t; simp
    | cons a as ih =>
      intro t
      simp only [List.foldl_cons, List.map_cons, List.sum_cons]
      rw [foldl_add_eq
        (fun position => quantityOr0 position.quantity * priceOr100 position.instrument.current_price)
        a.positions (t + cashOr0 a.cash_balance), ih]
      ring
  rw [houter, zero_add]

/-- Claim C4, counterexample. A position with quantity 1 and a missing
`current_price`: the claim says the missing price is treated as 0, giving
portfolio value 0, but the code's `or 100` default values the position at
100. -/
theorem portfolio_value_missing_price_counterexample :
    calculate_portfolio_value ⟨[⟨some 0, [⟨some 1, ⟨none, []⟩⟩]⟩]⟩ = 100 ∧
    portfolio_value_per_claim ⟨[⟨some 0, [⟨some 1, ⟨none, []⟩⟩]⟩]⟩ = 0 ∧
    (100 : ℚ) ≠ 0 := by
  refine ⟨by decide, by decide, by norm_num⟩

/-- Claim C4, amended. `calculate_portfolio_value` returns the sum over
accounts of `cash_balance` (missing/`null` → 0) plus, over positions,
`quantity` (missing/`null` → 0) times the instrument's `current_price`,
where a missing, `null`, or zero price is treated as 100; on such
numeric-or-null snapshots the function is total (never raises). -/
theorem portfolio_value_closed_form (pd : Portfolio) :
    calculate_portfolio_value pd = portfolio_value_closed pd :=
  portfolio_value_eq_closed pd

/-- The ages 72–90 divisor is positive. -/
theorem rmdDivisor_pos_72_90 : ∀ a : Nat, 72 ≤ a → a ≤ 90 → 0 < rmdDivisor a := by
  intro a h1 h2
  interval_cases a <;> decide

/-- The divisor strictly decreases at every step from 72 up to 90. -/
theorem rmdDivisor_strict_72_90 : ∀ a : Nat, 72 ≤ a → a < 90 →
    rmdDivisor (a + 1) < rmdDivisor a := by
  intro a h1 h2
  interval_cases a <;> decide

/-- Dividing `b` by `b / d` recovers `d` (for `b ≠ 0`). -/
theorem div_div_self_eq (b d : ℚ) (hb : b ≠ 0) : b / (b / d) = d := by
  rw [div_div_eq_mul_div, mul_div_cancel_left₀ d hb]

/-- Claim C6, counterexample. The table gives divisor 12.7 at age 90 but the
interpolation `15.8 - (91-85)*0.3` gives 14.0 at age 91: the effective
divisor `balance / rmd` strictly *increases* from 90 to 91, refuting strict
decrease across 72–100. -/
theorem rmd_divisor_not_monotone_counterexample :
    calculate_rmd 1000 90 = 1000 / (127/10) ∧
    calculate_rmd 1000 91 = 1000 / 14 ∧
    1000 / calculate_rmd 1000 90 < 1000 / calculate_rmd 1000 91 := by
  refine ⟨by decide, by decide, by decide⟩

/-- Claim C6, amended. `rmd(b, 71) = 0`; `rmd(b, 72) = b / 27.4`; and the
effective divisor `b / rmd(b, age)` strictly decreases as the age increases
from 72 up to 90 (the counterexample above shows the decrease stops at the
90 → 91 step, so the claimed range "to 100" is cut back to 90). -/
theorem rmd_boundary_divisor_decreasing_to_90 (balance : ℚ) (hb : 0 < balance) :
    calculate_rmd balance 71 = 0 ∧
    calculate_rmd balance 72 = balance / (274/10) ∧
    (∀ a : Nat, 72 ≤ a → a < 90 →
      balance / calculate_rmd balance (a + 1) < balance / calculate_rmd balance a) := by
  refine ⟨rfl, ?_, ?_⟩
  · show (if (72 : Nat) < 72 then 0 else balance / rmdDivisor 72) = balance / (274/10)
    rw [if_neg (lt_irrefl 72)]
    norm_num [rmdDivisor, rmd_divisors]
  · intro a h1 h2
    have hne : balance ≠ 0 := ne_of_gt hb
    have e1 : calculate_rmd balance a = balance / rmdDivisor a := by
      unfold calculate_rmd
      rw [if_neg (by omega)]
    have e2 : calculate_rmd balance (a + 1) = balance / rmdDivisor (a + 1) := by
      unfold calculate_rmd
      rw [if_neg (by omega)]
    rw [e1, e2, div_div_self_eq balance _ hne, div_div_self_eq balance _ hne]
    exact rmdDivisor_strict_72_90 a h1 h2

/-- Witness for the amended C6 at balance 1000 and the 80 → 81 step. -/
theorem rmd_boundary_divisor_decreasing_to_90_witness :
    calculate_rmd 1000 71 = 0 ∧
    calculate_rmd 1000 72 = 1000 / (274/10) ∧
    1000 / calculate_rmd 1000 81 < 1000 / calculate_rmd 1000 80 :=
  ⟨(rmd_boundary_divisor_decreasing_to_90 1000 (by norm_num)).1,
    (rmd_boundary_divisor_decreasing_to_90 1000 (by norm_num)).2.1,
    (rmd_boundary_divisor_decreasing_to_90 1000 (by norm_num)).2.2 80 (by norm_num) (by norm_num)⟩

/-- Claim C7. With FRA 67 and benefit 2000: claiming at the FRA returns
exactly 2000; claiming at 62 pays strictly less than at 67, which pays
strictly less than at 70; and the delayed-claiming increase is capped at
age 70 — any claiming age ≥ 70 pays the same as 70. -/
theorem social_security_claiming_ordering :
    (calculate_social_security_benefit 60 67 2000 (some 67)).benefit_at_claiming_age = 2000 ∧
    (calculate_social_security_benefit 60 67 2000 (some 62)).benefit_at_claiming_age <
      (calculate_social_security_benefit 60 67 2000 (some 67)).benefit_at_claiming_age ∧
    (calculate_social_security_benefit 60 67 2000 (some 67)).benefit_at_claiming_age <
      (calculate_social_security_benefit 60 67 2000 (some 70)).benefit_at_claiming_age ∧
    (∀ ca : Nat, 70 ≤ ca →
      (calculate_social_security_benefit 60 67 2000 (some ca)).benefit_at_claiming_age =
        (calculate_social_security_benefit 60 67 2000 (some 70)).benefit_at_claiming_age) := by
  refine ⟨by decide, by decide, by decide, ?_⟩
  intro ca hca
  unfold calculate_social_security_benefit
  simp only [Option.getD_some]
  rw [if_neg (by omega), if_pos (by omega : 67 < ca)]
  rw [show min (ca - 67) (70 - 67) = 3 from by omega]
  norm_num

/-- Witness for C7's universally quantified cap conjunct, at claiming
age 75. -/
theorem social_security_claiming_ordering_witness :
    (calculate_social_security_benefit 60 67 2000 (some 75)).benefit_at_claiming_age =
      (calculate_social_security_benefit 60 67 2000 (some 70)).benefit_at_claiming_age :=
  social_security_claiming_ordering.2.2.2 75 (by norm_num)

/-- Each position adds its value to `total_value`, whether or not its
allocation dict is empty. -/
theorem allocPosStep_value (t : AllocTotals) (p : Position) :
    (allocPosStep t p).total_value =
      t.total_value + quantityOr0 p.quantity * priceOr100 p.instrument.current_price := by
  simp only [allocPosStep]
  by_cases h : p.instrument.allocation_asset_class = []
  · rw [if_pos h]
  · rw [if_neg h]

/-- A position whose allocation dict is non-empty and whose four read keys
sum to 100 preserves the buckets-add-up-to-value invariant. -/
theorem allocPosStep_sum (t : AllocTotals) (p : Position)
    (hne : p.instrument.allocation_asset_class ≠ [])
    (hsum : allocGet p.instrument.allocation_asset_class "equity"
        + allocGet p.instrument.allocation_asset_class "fixed_income"
        + allocGet p.instrument.allocation_asset_class "real_estate"
        + allocGet p.instrument.allocation_asset_class "commodities" = 100)
    (ht : t.total_equity + t.total_bonds + t.total_real_estate
        + t.total_commodities + t.total_cash = t.total_value) :
    (allocPosStep t p).total_equity + (allocPosStep t p).total_bonds
      + (allocPosStep t p).total_real_estate + (allocPosStep t p).total_commodities
      + (allocPosStep t p).total_cash = (allocPosStep t p).total_value := by
  simp only [allocPosStep]
  rw [if_neg hne]
  dsimp only
  linear_combination ht
    + (quantityOr0 p.quantity * priceOr100 p.instrument.current_price / 100) * hsum

/-- The inner positions fold preserves the invariant. -/
theorem foldl_allocPos_inv : ∀ (ps : List Position) (t : AllocTotals),
    (∀ p ∈ ps, p.instrument.allocation_asset_class ≠ [] ∧
      allocGet p.instrument.allocation_asset_class "equity"
        + allocGet p.instrument.allocation_asset_class "fixed_income"
        + allocGet p.instrument.allocation_asset_class "real_estate"
        + allocGet p.instrument.allocation_asset_class "commodities" = 100) →
    t.total_equity + t.total_bonds + t.total_real_estate
        + t.total_commodities + t.total_cash = t.total_value →
    (ps.foldl allocPosStep t).total_equity + (ps.foldl allocPosStep t).total_bonds
      + (ps.foldl allocPosStep t).total_real_estate + (ps.foldl allocPosStep t).total_commodities
      + (ps.foldl allocPosStep t).total_cash = (ps.foldl allocPosStep t).total_value := by
  intro ps
  induction ps with
  | nil => intro t _ ht; exact ht
  | cons p ps ih =>
    intro t h ht
    obtain ⟨hne, hsum⟩ := h p (List.mem_cons_self p ps)
    exact ih (allocPosStep t p) (fun x hx => h x (List.mem_cons_of_mem p hx))
      (allocPosStep_sum t p hne hsum ht)

/-- The inner positions fold adds the positions' values to `total_value`. -/
theorem foldl_allocPos_value : ∀ (ps : List Position) (t : AllocTotals),
    (ps.foldl allocPosStep t).total_value =
      t.total_value + (ps.map (fun p =>
        quantityOr0 p.quantity * priceOr100 p.instrument.current_price)).sum := by
  intro ps
  induction ps with
  | nil => intro t; simp
  | cons p ps ih =>
    intro t
    simp only [List.foldl_cons, List.map_cons, List.sum_cons, ih, allocPosStep_value]
    ring

/-- One account preserves the invariant (its cash goes to both the cash
bucket and the total). -/
theorem allocAccStep_sum (t : AllocTotals) (account : Account)
    (h : ∀ p ∈ account.positions, p.instrument.allocation_asset_class ≠ [] ∧
      allocGet p.instrument.allocation_asset_class "equity"
        + allocGet p.instrument.allocation_asset_class "fixed_income"
        + allocGet p.instrument.allocation_asset_class "real_estate"
        + allocGet p.instrument.allocation_asset_class "commodities" = 100)
    (ht : t.total_equity + t.total_bonds + t.total_real_estate
        + t.total_commodities + t.total_cash = t.total_value) :
    (allocAccStep t account).total_equity + (allocAccStep t account).total_bonds
      + (allocAccStep t account).total_real_estate + (allocAccStep t account).total_commodities
      + (allocAccStep t account).total_cash = (allocAccStep t account).total_value := by
  simp only [allocAccStep]
  exact foldl_allocPos_inv account.positions _ h (by dsimp only; linarith)

/-- One account adds its cash plus its positions' values to `total_value`. -/
theorem allocAccStep_value (t : AllocTotals) (account : Account) :
    (allocAccStep t account).total_value =
      t.total_value + (cashOr0 account.cash_balance
        + (account.positions.map (fun p =>
            quantityOr0 p.quantity * priceOr100 p.instrument.current_price)).sum) := by
  simp only [allocAccStep, foldl_allocPos_value]
  ring

/-- The final accumulators satisfy buckets-add-up-to-value whenever every
position's allocation dict is non-empty with its four read keys summing
to 100. -/
theorem allocTotals_sum (pd : Portfolio)
    (h : ∀ account ∈ pd.accounts, ∀ p ∈ account.positions,
      p.instrument.allocation_asset_class ≠ [] ∧
      allocGet p.instrument.allocation_asset_class "equity"
        + allocGet p.instrument.allocation_asset_class "fixed_income"
        + allocGet p.instrument.allocation_asset_class "real_estate"
        + allocGet p.instrument.allocation_asset_class "commodities" = 100) :
    (allocTotals pd).total_equity + (allocTotals pd).total_bonds
      + (allocTotals pd).total_real_estate + (allocTotals pd).total_commodities
      + (allocTotals pd).total_cash = (allocTotals pd).total_value := by
  unfold allocTotals
  have main : ∀ (accs : List Account) (t : AllocTotals),
      (∀ a ∈ accs, ∀ p ∈ a.positions, p.instrument.allocation_asset_class ≠ [] ∧
        allocGet p.instrument.allocation_asset_class "equity"
          + allocGet p.instrument.allocation_asset_class "fixed_income"
          + allocGet p.instrument.allocation_asset_class "real_estate"
          + allocGet p.instrument.allocation_asset_class "commodities" = 100) →
      t.total_equity + t.total_bonds + t.total_real_estate
          + t.total_commodities + t.total_cash = t.total_value →
      (accs.foldl allocAccStep t).total_equity + (accs.foldl allocAccStep t).total_bonds
        + (accs.foldl allocAccStep t).total_real_estate
        + (accs.foldl allocAccStep t).total_commodities
        + (accs.foldl allocAccStep t).total_cash = (accs.foldl allocAccStep t).total_value := by
    intro accs
    induction accs with
    | nil => intro t _ ht; exact ht
    | cons a as ih =>
      intro t hh ht
      exact ih (allocAccStep t a) (fun x hx => hh x (List.mem_cons_of_mem a hx))
        (allocAccStep_sum t a (hh a (List.mem_cons_self a as)) ht)
  exact main pd.accounts ⟨0, 0, 0, 0, 0, 0⟩ h (by norm_num)

/-- The allocation pass accumulates the same total value that
`calculate_portfolio_value` computes. -/
theorem allocTotals_value (pd : Portfolio) :
    (allocTotals pd).total_value = calculate_portfolio_value pd := by
  rw [portfolio_value_eq_closed]
  unfold allocTotals portfolio_value_closed
  have main : ∀ (accs : List Account) (t : AllocTotals),
      (accs.foldl allocAccStep t).total_value =
        t.total_value + (accs.map (fun account =>
          cashOr0 account.cash_balance
            + (account.positions.map (fun p =>
                quantityOr0 p.quantity * priceOr100 p.instrument.current_price)).sum)).sum := by
    intro accs
    induction accs with
    | nil => intro t; simp
    | cons a as ih =>
      intro t
      simp only [List.foldl_cons, List.map_cons, List.sum_cons, ih, allocAccStep_value]
      ring
  rw [main]
  norm_num

/-- Claim C5, counterexample. One position of value 50 whose allocation dict
is `{equity: 50}` (the percentages do not sum to 100): the portfolio value
is 50 > 0 but the five buckets sum to 1/2, far outside the claimed
1 ± 1e-6. -/
theorem asset_allocation_sum_counterexample :
    calculate_portfolio_value ⟨[⟨some 0, [⟨some 1, ⟨some 50, [("equity", 50)]⟩⟩]⟩]⟩ = 50 ∧
    bucketSum (calculate_asset_allocation
      ⟨[⟨some 0, [⟨some 1, ⟨some 50, [("equity", 50)]⟩⟩]⟩]⟩) = 1/2 ∧
    (1/2 : ℚ) < 1 - 1/1000000 := by
  refine ⟨by decide, by decide, by norm_num⟩

/-- Claim C5, amended. For portfolios in which every position's
`allocation_asset_class` dict is non-empty and its four read keys
(`equity`, `fixed_income`, `real_estate`, `commodities`) sum to 100: when
the total value is positive the five buckets sum to exactly 1, and when the
total value is 0 the all-zero allocation is returned with no
division-by-zero. (The counterexample above shows the unrestricted claim
fails for allocation dicts not summing to 100.) -/
theorem asset_allocation_sum_to_one (pd : Portfolio)
    (h : ∀ account ∈ pd.accounts, ∀ p ∈ account.positions,
      p.instrument.allocation_asset_class ≠ [] ∧
      allocGet p.instrument.allocation_asset_class "equity"
        + allocGet p.instrument.allocation_asset_class "fixed_income"
        + allocGet p.instrument.allocation_asset_class "real_estate"
        + allocGet p.instrument.allocation_asset_class "commodities" = 100) :
    (0 < calculate_portfolio_value pd → bucketSum (calculate_asset_allocation pd) = 1) ∧
    (calculate_portfolio_value pd = 0 → calculate_asset_allocation pd = ⟨0, 0, 0, 0, 0⟩) := by
  have hv := allocTotals_value pd
  have hinv := allocTotals_sum pd h
  constructor
  · intro hpos
    have hne : (allocTotals pd).total_value ≠ 0 := by
      rw [hv]
      exact ne_of_gt hpos
    unfold calculate_asset_allocation bucketSum
    rw [if_neg hne]
    dsimp only
    rw [div_add_div_same, div_add_div_same, div_add_div_same, div_add_div_same, hinv]
    exact div_self hne
  · intro hzero
    unfold calculate_asset_allocation
    rw [if_pos (by rw [hv]; exact hzero)]

/-- Witness for the amended C5: one account with cash 1000 and a 10 × 50
position fully allocated to equity — value 1500 > 0 and the buckets sum
to 1. -/
theorem asset_allocation_sum_to_one_witness :
    bucketSum (calculate_asset_allocation
      ⟨[⟨some 1000, [⟨some 10, ⟨some 50, [("equity", 100)]⟩⟩]⟩]⟩) = 1 :=
  (asset_allocation_sum_to_one
    ⟨[⟨some 1000, [⟨some 10, ⟨some 50, [("equity", 100)]⟩⟩]⟩]⟩ (by decide)).1 (by decide)
